import Mathlib

set_option autoImplicit false

/-!
Tencent Cloud CVM builder: artifact assembly, pre-flight validation, step list

A shallow embedding of `builder/tencentcloud/cvm/builder.go` (`Builder.Run`) and
`builder/tencentcloud/cvm/step_pre_validate.go` (`stepPreValidate.Run`).

Go values stored in the state bag are `interface{}` values; they are embedded as the
tagged union `Value`.  A failed type assertion `x.(T)` is a run-time panic; it is embedded
as `Exec.panics`.
-/

namespace Cvm

/-! ## Data model -/

/-- Go `error` value, identified by its message. -/
structure GoError where
  msg : String
deriving DecidableEq, Repr

/-- Handle standing for a `*cvm.Client`. -/
structure CvmClient where
  handle : Nat
deriving DecidableEq, Repr

/-- Handle standing for a `*vpc.Client`. -/
structure VpcClient where
  handle : Nat
deriving DecidableEq, Repr

/-- Handle standing for a `*cvm.Image` returned by the image service. -/
structure Image where
  ImageId : String
deriving DecidableEq, Repr

/-- Handle standing for `communicator.Config` (declared in the SDK, carried uninterpreted). -/
structure CommConfig where
  handle : Nat
deriving DecidableEq, Repr

/-- Handle standing for one entry of `Config.DataDisks` (its type is declared outside the
two files embedded here, carried uninterpreted). -/
structure DataDisk where
  handle : Nat
deriving DecidableEq, Repr

/-- Go `map[string]string`, as an association list. -/
abbrev StringMap := List (String × String)

/-- The fields of `Config` (with its squashed access, image and run configurations) that
`Builder.Run` and `stepPreValidate.Run` read. -/
structure Config where
  PackerDebug : Bool
  PackerBuildName : String
  Region : String
  Zone : String
  CdcId : String
  ImageName : String
  SkipCreateImage : Bool
  ImageShareAccounts : List String
  ImageCopyRegions : List String
  SourceImageId : String
  Comm : CommConfig
  VpcId : String
  CidrBlock : String
  VpcName : String
  SubnetId : String
  SubnectCidrBlock : String
  SubnetName : String
  SecurityGroupId : String
  SecurityGroupName : String
  InstanceType : String
  InstanceChargeType : String
  UserData : String
  UserDataFile : String
  InstanceName : String
  DiskType : String
  DiskSize : Int
  DataDisks : List DataDisk
  HostName : String
  InternetChargeType : String
  InternetMaxBandwidthOut : Int
  BandwidthPackageId : String
  AssociatePublicIpAddress : Bool
  CamRoleName : String
  RunTags : StringMap
deriving DecidableEq, Repr

/-- A Go `interface{}` value as stored in the state bag: the untyped `nil`, or a value
tagged with its dynamic type. -/
inductive Value where
  | nil
  | error (e : GoError)
  | stringMap (m : StringMap)
  | config (c : Config)
  | cvmClient (c : CvmClient)
  | vpcClient (c : VpcClient)
  | image (i : Image)
  | hook
  | ui
  | bool (b : Bool)
  | str (s : String)
deriving DecidableEq, Repr

/-- The constant `BuilderId` of `builder.go`. -/
def BuilderId : String := "tencent.cloud"

/-- The `Artifact` struct literal built at the end of `Builder.Run`; `StateData` is a Go
`map[string]interface{}`, as an association list. -/
structure Artifact where
  TencentCloudImages : StringMap
  BuilderIdValue : String
  Client : CvmClient
  StateData : List (String × Value)
deriving DecidableEq, Repr

/-- Outcome of running a piece of Go code: it returns a value, or a type assertion fails
and the goroutine panics. -/
inductive Exec (α : Type) where
  | returns (a : α)
  | panics
deriving DecidableEq, Repr

/-- The `multistep.StepAction` values used by the steps. -/
inductive StepAction where
  | ActionContinue
  | ActionHalt
deriving DecidableEq, Repr

/-! ## Shared state container -/

/-- Modelled from the spec: the Shared State Container of section 4.1, a mapping from string
key to a tagged value (`multistep.BasicStateBag` of the SDK, outside the embedded files). -/
structure StateBag where
  data : List (String × Value)
deriving DecidableEq, Repr

namespace StateBag

/-- Modelled from the spec: a freshly allocated container (`new(multistep.BasicStateBag)`)
holds no key. -/
def empty : StateBag := ⟨[]⟩

/-- Modelled from the spec: `Get(key) -> (value, present)` of section 4.1; a missing key
yields the untyped `nil` and `false`. -/
def GetOk (b : StateBag) (k : String) : Value × Bool :=
  match b.data.lookup k with
  | some v => (v, true)
  | none => (Value.nil, false)

/-- Modelled from the spec: the one-result read, the value component of `GetOk`. -/
def Get (b : StateBag) (k : String) : Value :=
  (b.GetOk k).1

/-- Modelled from the spec: `Put(key, value)` of section 4.1; the key then maps to the
new value and every other key is untouched. -/
def Put (b : StateBag) (k : String) (v : Value) : StateBag :=
  ⟨(k, v) :: b.data.filter (fun p => p.1 != k)⟩

end StateBag

/-! ## The step list of `Builder.Run` -/

/-- Parameters of the `stepRunInstance` literal. -/
structure RunInstanceParams where
  InstanceType : String
  InstanceChargeType : String
  UserData : String
  UserDataFile : String
  ZoneId : String
  InstanceName : String
  DiskType : String
  DiskSize : Int
  DataDisks : List DataDisk
  HostName : String
  InternetChargeType : String
  InternetMaxBandwidthOut : Int
  BandwidthPackageId : String
  AssociatePublicIpAddress : Bool
  CamRoleName : String
  Tags : StringMap
  CdcId : String
deriving DecidableEq, Repr

/-- The step values of the literal list in `Builder.Run`, one constructor per step type,
carrying the constructor-supplied parameters.  `StepConnect.SSHConfig` is
`Comm.SSHConfigFunc()` and `StepConnect.Host` is `SSHHost(b)`: both closures are recorded
by the argument they are built from. -/
inductive Step where
  | stepPreValidate (SkipCreateImage : Bool)
  | stepCheckSourceImage (sourceImageId : String)
  | stepConfigKeyPair (Debug : Bool) (Comm : CommConfig) (DebugKeyPath : String)
  | stepConfigVPC (VpcId CidrBlock VpcName : String)
  | stepConfigSubnet (SubnetId SubnetCidrBlock SubnetName Zone CdcId : String)
  | stepConfigSecurityGroup (SecurityGroupId SecurityGroupName Description : String)
  | stepRunInstance (p : RunInstanceParams)
  | StepConnect (Config : CommConfig) (SSHConfigOf : CommConfig) (SSHHostOf : Bool)
  | StepProvision
  | StepCleanupTempKeys (Comm : CommConfig)
  | stepDetachTempKeyPair
  | stepCreateImage (SkipCreateImage : Bool)
  | stepShareImage (ShareAccounts : List String)
  | stepCopyImage (DestinationRegions : List String) (SourceRegion : String)
      (SkipCreateImage : Bool)
deriving DecidableEq, Repr

/-- The kind (Go type) of a step, forgetting its parameters. -/
inductive StepKind where
  | preValidate
  | checkSourceImage
  | configKeyPair
  | configVPC
  | configSubnet
  | configSecurityGroup
  | runInstance
  | connect
  | provision
  | cleanupTempKeys
  | detachTempKeyPair
  | createImage
  | shareImage
  | copyImage
deriving DecidableEq, Repr

/-- The Go type of each step value. -/
def Step.kind : Step → StepKind
  | .stepPreValidate _ => .preValidate
  | .stepCheckSourceImage _ => .checkSourceImage
  | .stepConfigKeyPair _ _ _ => .configKeyPair
  | .stepConfigVPC _ _ _ => .configVPC
  | .stepConfigSubnet _ _ _ _ _ => .configSubnet
  | .stepConfigSecurityGroup _ _ _ => .configSecurityGroup
  | .stepRunInstance _ => .runInstance
  | .StepConnect _ _ _ => .connect
  | .StepProvision => .provision
  | .StepCleanupTempKeys _ => .cleanupTempKeys
  | .stepDetachTempKeyPair => .detachTempKeyPair
  | .stepCreateImage _ => .createImage
  | .stepShareImage _ => .shareImage
  | .stepCopyImage _ _ _ => .copyImage

/-- The `steps` slice literal of `Builder.Run` (builder.go lines 92-163). -/
def Builder.steps (config : Config) : List Step :=
  [ .stepPreValidate config.SkipCreateImage,
    .stepCheckSourceImage config.SourceImageId,
    .stepConfigKeyPair config.PackerDebug config.Comm
      ("cvm_" ++ config.PackerBuildName ++ ".pem"),
    .stepConfigVPC config.VpcId config.CidrBlock config.VpcName,
    .stepConfigSubnet config.SubnetId config.SubnectCidrBlock config.SubnetName config.Zone
      config.CdcId,
    .stepConfigSecurityGroup config.SecurityGroupId config.SecurityGroupName
      "securitygroup for packer",
    .stepRunInstance
      { InstanceType := config.InstanceType
        InstanceChargeType := config.InstanceChargeType
        UserData := config.UserData
        UserDataFile := config.UserDataFile
        ZoneId := config.Zone
        InstanceName := config.InstanceName
        DiskType := config.DiskType
        DiskSize := config.DiskSize
        DataDisks := config.DataDisks
        HostName := config.HostName
        InternetChargeType := config.InternetChargeType
        InternetMaxBandwidthOut := config.InternetMaxBandwidthOut
        BandwidthPackageId := config.BandwidthPackageId
        AssociatePublicIpAddress := config.AssociatePublicIpAddress
        CamRoleName := config.CamRoleName
        Tags := config.RunTags
        CdcId := config.CdcId },
    .StepConnect config.Comm config.Comm config.AssociatePublicIpAddress,
    .StepProvision,
    .StepCleanupTempKeys config.Comm,
    .stepDetachTempKeyPair,
    .stepCreateImage config.SkipCreateImage,
    .stepShareImage config.ImageShareAccounts,
    .stepCopyImage config.ImageCopyRegions config.Region config.SkipCreateImage ]

/-! ## `Builder.Run` -/

/-- The state bag `Builder.Run` hands to the runner (builder.go lines 83-88). -/
def Builder.initialState (config : Config) (cvmClient : CvmClient) (vpcClient : VpcClient) :
    StateBag :=
  ((((StateBag.empty.Put "config" (.config config)).Put "cvm_client"
    (.cvmClient cvmClient)).Put "vpc_client" (.vpcClient vpcClient)).Put "hook"
    .hook).Put "ui" .ui

/-- The tail of `Builder.Run` after the runner has returned (builder.go lines 168-183):
the recorded error first, then the image key, then the artifact literal. -/
def Builder.assemble (cvmClient : CvmClient) (state : StateBag) :
    Exec (Option Artifact × Option GoError) :=
  match state.GetOk "error" with
  | (rawErr, true) =>
    match rawErr with
    | .error e => .returns (none, some e)
    | _ => .panics
  | (_, false) =>
    match state.GetOk "image" with
    | (_, false) => .returns (none, none)
    | (_, true) =>
      match state.Get "tencentcloudimages" with
      | .stringMap m =>
        .returns
          (some
            { TencentCloudImages := m
              BuilderIdValue := BuilderId
              Client := cvmClient
              StateData := [("generated_data", state.Get "generated_data")] },
            none)
      | _ => .panics

/-- The method `Builder.Run` of builder.go.  `clientResult` is what `b.config.Client()`
returned (both clients and the error, `none` for a nil error); `runner steps state` is the
state bag as the runner built by `commonsteps.NewRunner` leaves it. -/
def Builder.Run (config : Config) (clientResult : CvmClient × VpcClient × Option GoError)
    (runner : List Step → StateBag → StateBag) : Exec (Option Artifact × Option GoError) :=
  match clientResult with
  | (_, _, some err) => .returns (none, some err)
  | (cvmClient, vpcClient, none) =>
    let state := Builder.initialState config cvmClient vpcClient
    let state := runner (Builder.steps config) state
    Builder.assemble cvmClient state

/-! ## `stepPreValidate` -/

/-- One interaction with the Remote Control-Plane Client: the image lookup by name issued
by `GetImageByName`, or a create verb on some resource kind. -/
inductive RemoteCall where
  | describeImageByName (name : String)
  | create (resource : String)
deriving DecidableEq, Repr

/-- One line sent to the UI sink by the logging helpers. -/
inductive UiEvent where
  | say (message pfx : String)
  | message (message pfx : String)
deriving DecidableEq, Repr

/-- What a step does outside the state bag: the remote calls it issued and the lines it
printed, oldest first. -/
structure Effects where
  remote : List RemoteCall
  ui : List UiEvent
deriving DecidableEq, Repr

/-- Modelled from the spec: the package helper `Say` (declared outside the embedded files);
logging sinks are plumbing (section 1), so it only appends a line to the UI sink. -/
def Say (w : Effects) (message pfx : String) : Effects :=
  { w with ui := w.ui ++ [UiEvent.say message pfx] }

/-- Modelled from the spec: the package helper `Message` (declared outside the embedded
files); as `Say`, it only appends a line to the UI sink. -/
def Message (w : Effects) (message pfx : String) : Effects :=
  { w with ui := w.ui ++ [UiEvent.message message pfx] }

/-- Modelled from the spec: the package helper `Halt` (declared outside the embedded
files); section 4.2: on failure a step writes the error into the state under the reserved
key, here "error" as read back by `Builder.Run`, and returns `Halt`. -/
def Halt (state : StateBag) (err : GoError) (_pfx : String) : StepAction × StateBag :=
  (StepAction.ActionHalt, state.Put "error" (Value.error err))

/-- The struct `stepPreValidate` of step_pre_validate.go. -/
structure stepPreValidate where
  SkipCreateImage : Bool
deriving DecidableEq, Repr

/-- The method `stepPreValidate.Run` of step_pre_validate.go.  `GetImageByName client name`
is the pair `(image, err)` the remote lookup by name answers with (`none` for nil); the
one lookup is recorded in the remote-call trace. -/
def stepPreValidate.Run (s : stepPreValidate)
    (GetImageByName : CvmClient → String → Option Image × Option GoError)
    (state : StateBag) (w : Effects) : Exec (StepAction × StateBag × Effects) :=
  if s.SkipCreateImage then
    .returns (StepAction.ActionContinue, state, w)
  else
    match state.Get "config" with
    | .config config =>
      match state.Get "cvm_client" with
      | .cvmClient client =>
        let w := Say w config.ImageName "Trying to check image name"
        let w := { w with remote := w.remote ++ [RemoteCall.describeImageByName config.ImageName] }
        match GetImageByName client config.ImageName with
        | (_, some err) =>
          let r := Halt state err "Failed to get images info"
          .returns (r.1, r.2, w)
        | (some _, none) =>
          let r := Halt state ⟨"Image name " ++ config.ImageName ++ " has exists"⟩ ""
          .returns (r.1, r.2, w)
        | (none, none) =>
          let w := Message w "useable" "Image name"
          .returns (StepAction.ActionContinue, state, w)
      | _ => .panics
    | _ => .panics

/-- The method `stepPreValidate.Cleanup`: an empty body. -/
def stepPreValidate.Cleanup (_s : stepPreValidate) (state : StateBag) : StateBag :=
  state

/-! ## Runner -/

/-- Modelled from the spec: the Step abstraction of section 4.2 as the Runner sees it, a
`Run` returning a control signal and a `Cleanup`, both acting on the shared state (the
step interface and the runner live in the SDK, outside the embedded files). -/
structure StepImpl (σ : Type) where
  Run : σ → StepAction × σ
  Cleanup : σ → σ

/-- One observable action of the Runner: `Run` of the step at position `i` was started, or
`Cleanup` of the step at position `i` was invoked. -/
inductive RunnerEvent where
  | run (i : Nat)
  | cleanup (i : Nat)
deriving DecidableEq, Repr

/-- Modelled from the spec: steps 1-3 of the Runner algorithm of section 4.3.  For each step
in order: stop if the context is cancelled (`cancelled i` before the step at position `i`),
else invoke `Run`, append the step to the "ran" list before interpreting the result, and
stop on `Halt`. -/
def Runner.advance {σ : Type} (cancelled : Nat → Bool) :
    List (StepImpl σ) → Nat → σ → List (Nat × StepImpl σ) → List RunnerEvent →
      σ × List (Nat × StepImpl σ) × List RunnerEvent
  | [], _, st, ran, log => (st, ran, log)
  | step :: rest, i, st, ran, log =>
    if cancelled i then (st, ran, log)
    else
      match step.Run st with
      | (StepAction.ActionHalt, st1) => (st1, ran ++ [(i, step)], log ++ [RunnerEvent.run i])
      | (StepAction.ActionContinue, st1) =>
        Runner.advance cancelled rest (i + 1) st1 (ran ++ [(i, step)])
          (log ++ [RunnerEvent.run i])

/-- Modelled from the spec: step 4 of the Runner algorithm of section 4.3, invoking `Cleanup`
on each step of the given list in the order given. -/
def Runner.cleanupAll {σ : Type} :
    List (Nat × StepImpl σ) → σ → List RunnerEvent → σ × List RunnerEvent
  | [], st, log => (st, log)
  | (i, step) :: rest, st, log =>
    Runner.cleanupAll rest (step.Cleanup st) (log ++ [RunnerEvent.cleanup i])

/-- Modelled from the spec: the Runner contract `Run(context, orderedSteps, state)` of section
4.3: advance through the steps, then invoke `Cleanup` on the "ran" list in reverse order.
Returns the final state and the trace of Runner events. -/
def Runner.Run {σ : Type} (cancelled : Nat → Bool) (steps : List (StepImpl σ)) (st : σ) :
    σ × List RunnerEvent :=
  let r := Runner.advance cancelled steps 0 st [] []
  Runner.cleanupAll r.2.1.reverse r.1 r.2.2

/-- The positions of the steps whose `Run` was started, in trace order. -/
def startedOf : List RunnerEvent → List Nat
  | [] => []
  | RunnerEvent.run i :: rest => i :: startedOf rest
  | RunnerEvent.cleanup _ :: rest => startedOf rest

/-- The positions of the steps whose `Cleanup` was invoked, in trace order. -/
def cleanedOf : List RunnerEvent → List Nat
  | [] => []
  | RunnerEvent.run _ :: rest => cleanedOf rest
  | RunnerEvent.cleanup i :: rest => i :: cleanedOf rest

/-- The step at position `k` is the first to return `Halt` when the steps are run in order
from state `st`: the steps before it return `Continue`. -/
def haltsFirstAt {σ : Type} : List (StepImpl σ) → σ → Nat → Bool
  | [], _, _ => false
  | step :: _, st, 0 => (step.Run st).1 == StepAction.ActionHalt
  | step :: rest, st, k + 1 =>
    (step.Run st).1 == StepAction.ActionContinue && haltsFirstAt rest (step.Run st).2 k

/-- Every step returns `Continue` when the steps are run in order from state `st`. -/
def allContinue {σ : Type} : List (StepImpl σ) → σ → Bool
  | [], _ => true
  | step :: rest, st =>
    (step.Run st).1 == StepAction.ActionContinue && allContinue rest (step.Run st).2

/-- The positions `i, i+1, ..., i+n-1`. -/
def positionsFrom (i : Nat) : Nat → List Nat
  | 0 => []
  | n + 1 => i :: positionsFrom (i + 1) n

/-- The "ran" list the advance phase appends, without the accumulators: the steps started
from position `i` and state `st`, in order. -/
def Runner.ranFrom {σ : Type} (cancelled : Nat → Bool) :
    List (StepImpl σ) → Nat → σ → List (Nat × StepImpl σ)
  | [], _, _ => []
  | step :: rest, i, st =>
    if cancelled i then []
    else
      match step.Run st with
      | (StepAction.ActionHalt, _) => [(i, step)]
      | (StepAction.ActionContinue, st1) => (i, step) :: Runner.ranFrom cancelled rest (i + 1) st1

/-- The type assertions of the tail of `Builder.Run` succeed on `state`: a recorded "error"
holds an `error`, and when no error is recorded and "image" is present,
"tencentcloudimages" holds a `map[string]string`. -/
def Builder.assertionsHold (state : StateBag) : Bool :=
  match state.GetOk "error" with
  | (Value.error _, true) => true
  | (_, true) => false
  | (_, false) =>
    match state.GetOk "image" with
    | (_, false) => true
    | (_, true) =>
      match state.Get "tencentcloudimages" with
      | Value.stringMap _ => true
      | _ => false

/-! ## Concrete inputs -/

/-- A sample configuration. -/
def sampleConfig : Config :=
  { PackerDebug := false
    PackerBuildName := "demo"
    Region := "ap-guangzhou"
    Zone := "ap-guangzhou-3"
    CdcId := ""
    ImageName := "packer-demo"
    SkipCreateImage := false
    ImageShareAccounts := []
    ImageCopyRegions := ["ap-shanghai"]
    SourceImageId := "img-base"
    Comm := ⟨0⟩
    VpcId := ""
    CidrBlock := "10.0.0.0/16"
    VpcName := "vpc"
    SubnetId := ""
    SubnectCidrBlock := "10.0.1.0/24"
    SubnetName := "subnet"
    SecurityGroupId := ""
    SecurityGroupName := "sg"
    InstanceType := "S4.SMALL1"
    InstanceChargeType := "POSTPAID_BY_HOUR"
    UserData := ""
    UserDataFile := ""
    InstanceName := "packer"
    DiskType := "CLOUD_PREMIUM"
    DiskSize := 50
    DataDisks := []
    HostName := "packer"
    InternetChargeType := "TRAFFIC_POSTPAID_BY_HOUR"
    InternetMaxBandwidthOut := 1
    BandwidthPackageId := ""
    AssociatePublicIpAddress := true
    CamRoleName := ""
    RunTags := [] }

/-- A sample region-to-image mapping. -/
def sampleImages : StringMap :=
  [("ap-guangzhou", "img-1"), ("ap-shanghai", "img-2")]

/-- A runner leaving a recorded error next to the image keys. -/
def runnerErrorAndImage : List Step → StateBag → StateBag :=
  fun _ s =>
    ((s.Put "image" (.image ⟨"img-1"⟩)).Put "tencentcloudimages" (.stringMap sampleImages)).Put
      "error" (.error ⟨"copy failed"⟩)

/-- A runner leaving the aggregate propagation error next to the copied regions. -/
def runnerOneRegionFailed : List Step → StateBag → StateBag :=
  fun _ s =>
    ((s.Put "image" (.image ⟨"img-1"⟩)).Put "tencentcloudimages"
      (.stringMap [("ap-guangzhou", "img-1")])).Put "error"
      (.error ⟨"copy to ap-shanghai failed"⟩)

/-- A runner leaving the aggregate error of two failed regions next to the source image. -/
def runnerTwoRegionsFailed : List Step → StateBag → StateBag :=
  fun _ s =>
    ((s.Put "image" (.image ⟨"img-7"⟩)).Put "tencentcloudimages"
      (.stringMap [("ap-beijing", "img-7")])).Put "error"
      (.error ⟨"copy to ap-shanghai, ap-chengdu failed"⟩)

/-- A runner that records nothing under "error" or "image" but leaves other keys. -/
def runnerNoImage : List Step → StateBag → StateBag :=
  fun _ s =>
    (s.Put "tencentcloudimages" (.stringMap sampleImages)).Put "generated_data" (.str "meta")

/-- A runner leaving an image, its region mapping and generated data. -/
def runnerSuccess : List Step → StateBag → StateBag :=
  fun _ s =>
    ((s.Put "image" (.image ⟨"img-1"⟩)).Put "tencentcloudimages" (.stringMap sampleImages)).Put
      "generated_data" (.str "meta")

/-- A runner leaving "image" recorded and no "tencentcloudimages". -/
def runnerImageOnly : List Step → StateBag → StateBag :=
  fun _ s => s.Put "image" (.image ⟨"img-1"⟩)

/-- A runner leaving an image and the mapping, with no generated data. -/
def runnerImageAndMap : List Step → StateBag → StateBag :=
  fun _ s => (s.Put "image" (.image ⟨"img-9"⟩)).Put "tencentcloudimages" (.stringMap [])

/-- The effects of `stepPreValidate.Run` up to and including the lookup of `name`: the
announcement line, then the one remote call. -/
def lookupEffects (w : Effects) (name : String) : Effects :=
  { remote := w.remote ++ [RemoteCall.describeImageByName name],
    ui := w.ui ++ [UiEvent.say name "Trying to check image name"] }

/-- A step over a counter state that adds `n` and returns `Continue`; its cleanup leaves
the state alone. -/
def continuingStep (n : Nat) : StepImpl Nat :=
  { Run := fun st => (StepAction.ActionContinue, st + n), Cleanup := fun st => st }

/-- A step over a counter state that returns `Halt` once the counter has reached `n`, and
`Continue` below it. -/
def haltingStep (n : Nat) : StepImpl Nat :=
  { Run := fun st =>
      if n ≤ st then (StepAction.ActionHalt, st) else (StepAction.ActionContinue, st),
    Cleanup := fun st => st }

/-- Three steps of which the second halts when run from state 0. -/
def stepsSecondHalts : List (StepImpl Nat) :=
  [continuingStep 5, haltingStep 5, continuingStep 1]

/-- Three steps that all continue when run from state 0. -/
def stepsAllContinue : List (StepImpl Nat) :=
  [continuingStep 1, haltingStep 5, continuingStep 1]

/-- A context that is never cancelled. -/
def neverCancelled : Nat → Bool :=
  fun _ => false

/-- A state bag as `Builder.Run` hands it to the steps. -/
def sampleState : StateBag :=
  Builder.initialState sampleConfig ⟨1⟩ ⟨2⟩

/-- A lookup that finds an existing image under every name. -/
def lookupFound : CvmClient → String → Option Image × Option GoError :=
  fun _ _ => (some ⟨"img-old"⟩, none)

/-- A lookup that fails with a remote-call error. -/
def lookupFails : CvmClient → String → Option Image × Option GoError :=
  fun _ _ => (none, some ⟨"RequestLimitExceeded"⟩)

/-- No effects yet. -/
def noEffects : Effects :=
  { remote := [], ui := [] }

/-! ## Theorems: `Builder.Run` -/

/-- C1: when the final state holds an error `e` under "error", `Builder.Run` returns
`(nil, e)`, the recorded error itself and no artifact, whatever "image" and
"tencentcloudimages" hold. -/
theorem Builder.Run_returns_recorded_error (config : Config) (cvmClient : CvmClient)
    (vpcClient : VpcClient) (runner : List Step → StateBag → StateBag) (e : GoError)
    (h : (runner (Builder.steps config)
      (Builder.initialState config cvmClient vpcClient)).GetOk "error" = (Value.error e, true)) :
    Builder.Run config (cvmClient, vpcClient, none) runner = Exec.returns (none, some e) := by
  simp only [Builder.Run, Builder.assemble, h]

/-- Witness for C1 at a final state that also holds "image" and "tencentcloudimages". -/
theorem Builder.Run_returns_recorded_error_witness :
    Builder.Run sampleConfig (⟨1⟩, ⟨2⟩, none) runnerErrorAndImage
      = Exec.returns (none, some ⟨"copy failed"⟩) :=
  Builder.Run_returns_recorded_error sampleConfig ⟨1⟩ ⟨2⟩ runnerErrorAndImage ⟨"copy failed"⟩
    (by decide)

/-- C2, as stated, fails: at a final state holding the aggregate error, "image" and the
region mapping, `Builder.Run` does not return a non-nil artifact together with a non-nil
error. -/
theorem Builder.Run_copy_failure_counterexample :
    Builder.Run sampleConfig (⟨1⟩, ⟨2⟩, none) runnerOneRegionFailed
        = Exec.returns (none, some ⟨"copy to ap-shanghai failed"⟩)
    ∧ ¬ ∃ (a : Artifact) (e : GoError),
      Builder.Run sampleConfig (⟨1⟩, ⟨2⟩, none) runnerOneRegionFailed
        = Exec.returns (some a, some e) := by
  have h : Builder.Run sampleConfig (⟨1⟩, ⟨2⟩, none) runnerOneRegionFailed
      = Exec.returns (none, some ⟨"copy to ap-shanghai failed"⟩) := by decide
  refine ⟨h, ?_⟩
  rintro ⟨a, e, he⟩
  rw [h] at he
  cases he

/-- C2, amended: when the final state holds an error `e` under "error", is marked with
"image" and holds a region mapping under "tencentcloudimages", `Builder.Run` returns the
error `e` and a nil artifact. -/
theorem Builder.Run_copy_failure_error_only (config : Config) (cvmClient : CvmClient)
    (vpcClient : VpcClient) (runner : List Step → StateBag → StateBag) (e : GoError)
    (M : StringMap)
    (herr : (runner (Builder.steps config)
      (Builder.initialState config cvmClient vpcClient)).GetOk "error" = (Value.error e, true))
    (_himg : ((runner (Builder.steps config)
      (Builder.initialState config cvmClient vpcClient)).GetOk "image").2 = true)
    (_hmap : (runner (Builder.steps config)
      (Builder.initialState config cvmClient vpcClient)).GetOk "tencentcloudimages"
        = (Value.stringMap M, true)) :
    Builder.Run config (cvmClient, vpcClient, none) runner = Exec.returns (none, some e) := by
  unfold Builder.Run Builder.assemble
  simp only [herr]

/-- Witness for the amended C2. -/
theorem Builder.Run_copy_failure_error_only_witness :
    Builder.Run sampleConfig (⟨3⟩, ⟨4⟩, none) runnerTwoRegionsFailed
      = Exec.returns (none, some ⟨"copy to ap-shanghai, ap-chengdu failed"⟩) :=
  Builder.Run_copy_failure_error_only sampleConfig ⟨3⟩ ⟨4⟩ runnerTwoRegionsFailed
    ⟨"copy to ap-shanghai, ap-chengdu failed"⟩ [("ap-beijing", "img-7")]
    (by decide) (by decide) (by decide)

/-- C3: when the final state holds neither "error" nor "image", `Builder.Run` returns
`(nil, nil)`, whatever the other keys hold. -/
theorem Builder.Run_no_image_no_result (config : Config) (cvmClient : CvmClient)
    (vpcClient : VpcClient) (runner : List Step → StateBag → StateBag)
    (herr : ((runner (Builder.steps config)
      (Builder.initialState config cvmClient vpcClient)).GetOk "error").2 = false)
    (himg : ((runner (Builder.steps config)
      (Builder.initialState config cvmClient vpcClient)).GetOk "image").2 = false) :
    Builder.Run config (cvmClient, vpcClient, none) runner = Exec.returns (none, none) := by
  unfold Builder.Run Builder.assemble
  simp only []
  generalize runner (Builder.steps config) (Builder.initialState config cvmClient vpcClient)
    = final at herr himg ⊢
  rcases h1 : final.GetOk "error" with ⟨v1, b1⟩
  rcases h2 : final.GetOk "image" with ⟨v2, b2⟩
  rw [h1] at herr
  rw [h2] at himg
  simp only at herr himg
  subst herr himg
  rfl

/-- Witness for C3 at a final state that holds "tencentcloudimages" and "generated_data". -/
theorem Builder.Run_no_image_no_result_witness :
    Builder.Run sampleConfig (⟨1⟩, ⟨2⟩, none) runnerNoImage = Exec.returns (none, none) :=
  Builder.Run_no_image_no_result sampleConfig ⟨1⟩ ⟨2⟩ runnerNoImage (by decide) (by decide)

/-- C4: when the final state holds no "error", holds "image", and holds the mapping `M`
under "tencentcloudimages", `Builder.Run` returns `(artifact, nil)` where the artifact
carries `M`, the builder id "tencent.cloud", the compute client obtained at the start, and
a `StateData` map with the single key "generated_data" bound to the state's value. -/
theorem Builder.Run_assembles_artifact (config : Config) (cvmClient : CvmClient)
    (vpcClient : VpcClient) (runner : List Step → StateBag → StateBag) (M : StringMap)
    (herr : ((runner (Builder.steps config)
      (Builder.initialState config cvmClient vpcClient)).GetOk "error").2 = false)
    (himg : ((runner (Builder.steps config)
      (Builder.initialState config cvmClient vpcClient)).GetOk "image").2 = true)
    (hmap : (runner (Builder.steps config)
      (Builder.initialState config cvmClient vpcClient)).GetOk "tencentcloudimages"
        = (Value.stringMap M, true)) :
    Builder.Run config (cvmClient, vpcClient, none) runner
      = Exec.returns
          (some
            { TencentCloudImages := M
              BuilderIdValue := "tencent.cloud"
              Client := cvmClient
              StateData :=
                [("generated_data",
                  (runner (Builder.steps config)
                    (Builder.initialState config cvmClient vpcClient)).Get "generated_data")] },
            none) := by
  unfold Builder.Run Builder.assemble
  simp only []
  generalize runner (Builder.steps config) (Builder.initialState config cvmClient vpcClient)
    = final at herr himg hmap ⊢
  have hget : final.Get "tencentcloudimages" = Value.stringMap M := by
    unfold StateBag.Get
    rw [hmap]
  rcases h1 : final.GetOk "error" with ⟨v1, b1⟩
  rcases h2 : final.GetOk "image" with ⟨v2, b2⟩
  rw [h1] at herr
  rw [h2] at himg
  simp only at herr himg
  subst herr himg
  simp only [hget]
  rfl

/-- Witness for C4. -/
theorem Builder.Run_assembles_artifact_witness :
    Builder.Run sampleConfig (⟨1⟩, ⟨2⟩, none) runnerSuccess
      = Exec.returns
          (some
            { TencentCloudImages := sampleImages
              BuilderIdValue := "tencent.cloud"
              Client := ⟨1⟩
              StateData := [("generated_data", Value.str "meta")] },
            none) :=
  Builder.Run_assembles_artifact sampleConfig ⟨1⟩ ⟨2⟩ runnerSuccess sampleImages
    (by decide) (by decide) (by decide)

/-- C5, as stated, fails: at a final state holding "image" and no "tencentcloudimages",
`Builder.Run` does not return at all (the unchecked type assertion panics). -/
theorem Builder.Run_not_total_counterexample :
    Builder.Run sampleConfig (⟨1⟩, ⟨2⟩, none) runnerImageOnly = Exec.panics
    ∧ ¬ ∃ r : Option Artifact × Option GoError,
      Builder.Run sampleConfig (⟨1⟩, ⟨2⟩, none) runnerImageOnly = Exec.returns r := by
  have h : Builder.Run sampleConfig (⟨1⟩, ⟨2⟩, none) runnerImageOnly = Exec.panics := by
    decide
  refine ⟨h, ?_⟩
  rintro ⟨r, hr⟩
  rw [h] at hr
  cases hr

/-- C5, amended: for every outcome of client construction and every final state,
`Builder.Run` either panics on a failed type assertion or returns one of `(artifact, nil)`,
`(nil, error)`, `(nil, nil)`, never a non-nil artifact with a non-nil error; and it returns
whenever client construction failed, or the final state passes the type assertions (a
recorded "error" holds an error; with no error and "image" present, "tencentcloudimages"
holds a string map). -/
theorem Builder.Run_result_surface (config : Config)
    (clientResult : CvmClient × VpcClient × Option GoError)
    (runner : List Step → StateBag → StateBag) :
    (Builder.Run config clientResult runner = Exec.panics
      ∨ (∃ a, Builder.Run config clientResult runner = Exec.returns (some a, none))
      ∨ (∃ e, Builder.Run config clientResult runner = Exec.returns (none, some e))
      ∨ Builder.Run config clientResult runner = Exec.returns (none, none))
    ∧ (clientResult.2.2 ≠ none → Builder.Run config clientResult runner ≠ Exec.panics)
    ∧ (Builder.assertionsHold (runner (Builder.steps config)
          (Builder.initialState config clientResult.1 clientResult.2.1)) = true →
        Builder.Run config clientResult runner ≠ Exec.panics) := by
  obtain ⟨cvmClient, vpcClient, err⟩ := clientResult
  cases err with
  | some err =>
    refine ⟨Or.inr (Or.inr (Or.inl ⟨err, rfl⟩)), ?_, ?_⟩ <;> intro _ <;> simp [Builder.Run]
  | none =>
    simp only [Builder.Run, Builder.assemble, Builder.assertionsHold, ne_eq, not_true_eq_false,
      false_implies, true_and]
    generalize runner (Builder.steps config) (Builder.initialState config cvmClient vpcClient)
      = final
    rcases final.GetOk "error" with ⟨v1, b1⟩
    rcases final.GetOk "image" with ⟨v2, b2⟩
    cases b1 <;> cases b2 <;> cases v1 <;> cases final.Get "tencentcloudimages" <;> simp

/-- Witness for the amended C5: a final state with "image" and the mapping passes the type
assertions, and `Builder.Run` does not panic on it; nor does it when client construction
failed. -/
theorem Builder.Run_result_surface_witness :
    Builder.Run sampleConfig (⟨1⟩, ⟨2⟩, none) runnerImageAndMap ≠ Exec.panics
    ∧ Builder.Run sampleConfig (⟨1⟩, ⟨2⟩, some ⟨"no credentials"⟩) runnerImageOnly
        ≠ Exec.panics :=
  ⟨(Builder.Run_result_surface sampleConfig (⟨1⟩, ⟨2⟩, none) runnerImageAndMap).2.2
      (by decide),
    (Builder.Run_result_surface sampleConfig (⟨1⟩, ⟨2⟩, some ⟨"no credentials"⟩)
      runnerImageOnly).2.1 (by decide)⟩

/-- C10: for every configuration the list of step kinds `Builder.Run` hands to the runner
is the same 14-element sequence, from pre-validate to copy-image. -/
theorem Builder.steps_fixed_sequence (config : Config) :
    (Builder.steps config).map Step.kind
      = [ StepKind.preValidate, StepKind.checkSourceImage, StepKind.configKeyPair,
          StepKind.configVPC, StepKind.configSubnet, StepKind.configSecurityGroup,
          StepKind.runInstance, StepKind.connect, StepKind.provision,
          StepKind.cleanupTempKeys, StepKind.detachTempKeyPair, StepKind.createImage,
          StepKind.shareImage, StepKind.copyImage ]
    ∧ (Builder.steps config).length = 14 :=
  ⟨rfl, rfl⟩

/-! ## Theorems: the state bag -/

/-- Reading back the key just written yields the written value, marked present. -/
theorem StateBag.GetOk_Put_same (b : StateBag) (k : String) (v : Value) :
    (b.Put k v).GetOk k = (v, true) := by
  simp [StateBag.GetOk, StateBag.Put, List.lookup]

/-! ## Theorems: `stepPreValidate.Run` -/

/-- C6: with `SkipCreateImage = false`, on a state holding the configuration (image name
`n`) and the client, when the lookup by name succeeds and returns an existing image,
`stepPreValidate.Run` returns `Halt`, records the error "Image name n has exists" under
"error", and its only remote call is the one lookup by name: no create call is issued. -/
theorem stepPreValidate.Run_existing_image_halts
    (GetImageByName : CvmClient → String → Option Image × Option GoError)
    (state : StateBag) (w : Effects) (config : Config) (client : CvmClient) (img : Image)
    (hcfg : state.Get "config" = Value.config config)
    (hcl : state.Get "cvm_client" = Value.cvmClient client)
    (hlookup : GetImageByName client config.ImageName = (some img, none)) :
    ∃ (st : StateBag) (w1 : Effects),
      stepPreValidate.Run ⟨false⟩ GetImageByName state w
        = Exec.returns (StepAction.ActionHalt, st, w1)
      ∧ st.GetOk "error"
        = (Value.error ⟨"Image name " ++ config.ImageName ++ " has exists"⟩, true)
      ∧ w1.remote = w.remote ++ [RemoteCall.describeImageByName config.ImageName]
      ∧ ∀ r, RemoteCall.create r ∉ [RemoteCall.describeImageByName config.ImageName] := by
  refine ⟨state.Put "error" (Value.error ⟨"Image name " ++ config.ImageName ++ " has exists"⟩),
    { remote := w.remote ++ [RemoteCall.describeImageByName config.ImageName]
      ui := w.ui ++ [UiEvent.say config.ImageName "Trying to check image name"] },
    ?_, StateBag.GetOk_Put_same _ _ _, rfl, ?_⟩
  · simp [stepPreValidate.Run, hcfg, hcl, hlookup, Halt, Say]
  · intro r hr
    simp at hr

/-- Witness for C6 on the state `Builder.Run` builds, with image name "packer-demo". -/
theorem stepPreValidate.Run_existing_image_halts_witness :
    ∃ (st : StateBag) (w1 : Effects),
      stepPreValidate.Run ⟨false⟩ lookupFound sampleState noEffects
        = Exec.returns (StepAction.ActionHalt, st, w1)
      ∧ st.GetOk "error"
        = (Value.error ⟨"Image name " ++ sampleConfig.ImageName ++ " has exists"⟩, true)
      ∧ w1.remote = noEffects.remote ++ [RemoteCall.describeImageByName sampleConfig.ImageName]
      ∧ ∀ r, RemoteCall.create r ∉ [RemoteCall.describeImageByName sampleConfig.ImageName] :=
  stepPreValidate.Run_existing_image_halts lookupFound sampleState noEffects sampleConfig ⟨1⟩
    ⟨"img-old"⟩ (by decide) (by decide) (by decide)

/-- C8: with `SkipCreateImage = true`, on every state (the empty one included) and for every
remote behaviour, `stepPreValidate.Run` returns `Continue`, leaves the state bag unchanged
and issues no remote call and no output. -/
theorem stepPreValidate.Run_skip_is_noop
    (GetImageByName : CvmClient → String → Option Image × Option GoError)
    (state : StateBag) (w : Effects) :
    stepPreValidate.Run ⟨true⟩ GetImageByName state w
        = Exec.returns (StepAction.ActionContinue, state, w)
    ∧ stepPreValidate.Run ⟨true⟩ GetImageByName StateBag.empty w
        = Exec.returns (StepAction.ActionContinue, StateBag.empty, w) :=
  ⟨rfl, rfl⟩

/-- C9: on a state holding "config" and "cvm_client", for every lookup outcome,
`stepPreValidate.Run` returns; it returns `Halt` exactly when `SkipCreateImage` is false and
the lookup failed or returned an existing image; on `Halt` an error is recorded under
"error" (the lookup's own error when the lookup failed); on `Continue` the state is left
as it was. -/
theorem stepPreValidate.Run_halt_iff (s : stepPreValidate)
    (GetImageByName : CvmClient → String → Option Image × Option GoError)
    (state : StateBag) (w : Effects) (config : Config) (client : CvmClient)
    (hcfg : state.Get "config" = Value.config config)
    (hcl : state.Get "cvm_client" = Value.cvmClient client) :
    ∃ (a : StepAction) (st : StateBag) (w1 : Effects),
      stepPreValidate.Run s GetImageByName state w = Exec.returns (a, st, w1)
      ∧ (a = StepAction.ActionHalt ↔
          s.SkipCreateImage = false
          ∧ ((GetImageByName client config.ImageName).2 ≠ none
            ∨ ((GetImageByName client config.ImageName).2 = none
              ∧ (GetImageByName client config.ImageName).1 ≠ none)))
      ∧ (a = StepAction.ActionHalt →
          ∃ e, st.GetOk "error" = (Value.error e, true)
            ∧ ∀ le, (GetImageByName client config.ImageName).2 = some le → e = le)
      ∧ (a = StepAction.ActionContinue → st = state) := by
  obtain ⟨skip⟩ := s
  cases skip with
  | true =>
    exact ⟨StepAction.ActionContinue, state, w, rfl, by simp, by simp, fun _ => rfl⟩
  | false =>
    rcases hG : GetImageByName client config.ImageName with ⟨img, err⟩
    cases err with
    | some le =>
      refine ⟨StepAction.ActionHalt, state.Put "error" (Value.error le),
        (lookupEffects w config.ImageName), ?_, by simp,
        fun _ => ⟨le, StateBag.GetOk_Put_same _ _ _, ?_⟩, by simp⟩
      · simp only [stepPreValidate.Run, hcfg, hcl, hG, Halt]
        rfl
      · intro le2 h
        simp only [Option.some.injEq] at h
        exact h
    | none =>
      cases img with
      | some i =>
        refine ⟨StepAction.ActionHalt,
          state.Put "error" (Value.error ⟨"Image name " ++ config.ImageName ++ " has exists"⟩),
          (lookupEffects w config.ImageName),
          ?_, by simp, fun _ => ⟨_, StateBag.GetOk_Put_same _ _ _, ?_⟩, by simp⟩
        · simp only [stepPreValidate.Run, hcfg, hcl, hG, Halt]
          rfl
        · intro le2 h
          simp at h
      | none =>
        refine ⟨StepAction.ActionContinue, state,
          Message (lookupEffects w config.ImageName)
            "useable" "Image name",
          ?_, by simp, by simp, fun _ => rfl⟩
        simp only [stepPreValidate.Run, hcfg, hcl, hG]
        rfl

/-- Witness for C9: a failing lookup on the state `Builder.Run` builds halts the step and
records the lookup's own error. -/
theorem stepPreValidate.Run_halt_iff_witness :
    ∃ (a : StepAction) (st : StateBag) (w1 : Effects),
      stepPreValidate.Run ⟨false⟩ lookupFails sampleState noEffects = Exec.returns (a, st, w1)
      ∧ (a = StepAction.ActionHalt ↔
          (⟨false⟩ : stepPreValidate).SkipCreateImage = false
          ∧ ((lookupFails ⟨1⟩ sampleConfig.ImageName).2 ≠ none
            ∨ ((lookupFails ⟨1⟩ sampleConfig.ImageName).2 = none
              ∧ (lookupFails ⟨1⟩ sampleConfig.ImageName).1 ≠ none)))
      ∧ (a = StepAction.ActionHalt →
          ∃ e, st.GetOk "error" = (Value.error e, true)
            ∧ ∀ le, (lookupFails ⟨1⟩ sampleConfig.ImageName).2 = some le → e = le)
      ∧ (a = StepAction.ActionContinue → st = sampleState) :=
  stepPreValidate.Run_halt_iff ⟨false⟩ lookupFails sampleState noEffects sampleConfig ⟨1⟩
    (by decide) (by decide)

/-! ## Theorems: the Runner -/

/-- The advance phase appends the steps it started to both accumulators. -/
theorem Runner.advance_eq {σ : Type} (cancelled : Nat → Bool) (steps : List (StepImpl σ)) :
    ∀ (i : Nat) (st : σ) (ran : List (Nat × StepImpl σ)) (log : List RunnerEvent),
      (Runner.advance cancelled steps i st ran log).2.1
          = ran ++ Runner.ranFrom cancelled steps i st
      ∧ (Runner.advance cancelled steps i st ran log).2.2
          = log ++ (Runner.ranFrom cancelled steps i st).map (fun p => RunnerEvent.run p.1) := by
  induction steps with
  | nil =>
    intro i st ran log
    simp [Runner.advance, Runner.ranFrom]
  | cons step rest ih =>
    intro i st ran log
    unfold Runner.advance Runner.ranFrom
    cases hc : cancelled i with
    | true => simp
    | false =>
      rcases hr : step.Run st with ⟨a, st1⟩
      cases a with
      | ActionHalt => simp
      | ActionContinue =>
        have h := ih (i + 1) st1 (ran ++ [(i, step)]) (log ++ [RunnerEvent.run i])
        simp [h.1, h.2]

/-- The cleanup phase appends one cleanup event per step, in the order given. -/
theorem Runner.cleanupAll_log {σ : Type} (l : List (Nat × StepImpl σ)) :
    ∀ (st : σ) (log : List RunnerEvent),
      (Runner.cleanupAll l st log).2 = log ++ l.map (fun p => RunnerEvent.cleanup p.1) := by
  induction l with
  | nil =>
    intro st log
    simp [Runner.cleanupAll]
  | cons p rest ih =>
    intro st log
    obtain ⟨i, step⟩ := p
    simp [Runner.cleanupAll, ih]

/-- The started positions of a trace of run events followed by cleanup events. -/
theorem startedOf_runs_cleanups (xs ys : List Nat) :
    startedOf (xs.map RunnerEvent.run ++ ys.map RunnerEvent.cleanup) = xs := by
  induction xs with
  | nil =>
    induction ys with
    | nil => rfl
    | cons y ys ih => simpa [startedOf] using ih
  | cons x xs ih => simpa [startedOf] using ih

/-- The cleaned positions of a trace of run events followed by cleanup events. -/
theorem cleanedOf_runs_cleanups (xs ys : List Nat) :
    cleanedOf (xs.map RunnerEvent.run ++ ys.map RunnerEvent.cleanup) = ys := by
  induction xs with
  | nil =>
    induction ys with
    | nil => rfl
    | cons y ys ih => simpa [cleanedOf] using ih
  | cons x xs ih => simpa [cleanedOf] using ih

/-- The trace of the Runner: the started steps in order, then their cleanups in reverse. -/
theorem Runner.Run_log {σ : Type} (cancelled : Nat → Bool) (steps : List (StepImpl σ))
    (st : σ) :
    (Runner.Run cancelled steps st).2
      = ((Runner.ranFrom cancelled steps 0 st).map Prod.fst).map RunnerEvent.run
        ++ ((Runner.ranFrom cancelled steps 0 st).map Prod.fst).reverse.map
            RunnerEvent.cleanup := by
  unfold Runner.Run
  have h := Runner.advance_eq cancelled steps 0 st [] []
  simp only [Runner.cleanupAll_log, h.1, h.2, List.nil_append, List.map_map, List.map_reverse]
  rfl

/-- When the step at offset `k` is the first to halt and the context is not cancelled up to
it, the started steps are the positions `i .. i+k`. -/
theorem Runner.ranFrom_haltsFirstAt {σ : Type} (cancelled : Nat → Bool)
    (steps : List (StepImpl σ)) :
    ∀ (i : Nat) (st : σ) (k : Nat), haltsFirstAt steps st k = true →
      (∀ j, j ≤ k → cancelled (i + j) = false) →
      (Runner.ranFrom cancelled steps i st).map Prod.fst = positionsFrom i (k + 1) := by
  induction steps with
  | nil =>
    intro i st k h
    simp [haltsFirstAt] at h
  | cons step rest ih =>
    intro i st k h hc
    have hci : cancelled i = false := by simpa using hc 0 (Nat.zero_le k)
    rcases hr : step.Run st with ⟨a, st1⟩
    cases k with
    | zero =>
      simp only [haltsFirstAt, hr, beq_iff_eq] at h
      subst h
      simp [Runner.ranFrom, hci, hr, positionsFrom]
    | succ k =>
      simp only [haltsFirstAt, hr, Bool.and_eq_true, beq_iff_eq] at h
      obtain ⟨ha, hrest⟩ := h
      subst ha
      have hc2 : ∀ j, j ≤ k → cancelled (i + 1 + j) = false := by
        intro j hj
        have := hc (j + 1) (Nat.succ_le_succ hj)
        rw [show i + 1 + j = i + (j + 1) by omega]
        exact this
      have h2 := ih (i + 1) st1 k hrest hc2
      simp [Runner.ranFrom, hci, hr, h2, positionsFrom]

/-- When every step continues and the context is never cancelled, the started steps are
all positions `i .. i+n-1`. -/
theorem Runner.ranFrom_allContinue {σ : Type} (cancelled : Nat → Bool)
    (steps : List (StepImpl σ)) :
    ∀ (i : Nat) (st : σ), allContinue steps st = true →
      (∀ j, j < steps.length → cancelled (i + j) = false) →
      (Runner.ranFrom cancelled steps i st).map Prod.fst = positionsFrom i steps.length := by
  induction steps with
  | nil =>
    intro i st _ _
    simp [Runner.ranFrom, positionsFrom]
  | cons step rest ih =>
    intro i st h hc
    have hci : cancelled i = false := by simpa using hc 0 (by simp)
    rcases hr : step.Run st with ⟨a, st1⟩
    simp only [allContinue, hr, Bool.and_eq_true, beq_iff_eq] at h
    obtain ⟨ha, hrest⟩ := h
    subst ha
    have hc2 : ∀ j, j < rest.length → cancelled (i + 1 + j) = false := by
      intro j hj
      have := hc (j + 1) (by simpa using hj)
      rw [show i + 1 + j = i + (j + 1) by omega]
      exact this
    have h2 := ih (i + 1) st1 hrest hc2
    simp [Runner.ranFrom, hci, hr, h2, positionsFrom]

/-- C7: for every step sequence, the Runner trace is the started steps in order followed by
cleanups, and the cleanup sequence is exactly the reverse of the started sequence.  If the
step at (0-based) position `k` is the first to halt, exactly the positions `0..k` are
started and cleanup runs for `k, ..., 0`; if all `n` steps continue, all positions
`0..n-1` are started and cleanup runs for `n-1, ..., 0`. -/
theorem Runner.Run_cleanup_reverse {σ : Type} (cancelled : Nat → Bool)
    (steps : List (StepImpl σ)) (st : σ) :
    cleanedOf (Runner.Run cancelled steps st).2
        = (startedOf (Runner.Run cancelled steps st).2).reverse
    ∧ (Runner.Run cancelled steps st).2
        = (startedOf (Runner.Run cancelled steps st).2).map RunnerEvent.run
          ++ (cleanedOf (Runner.Run cancelled steps st).2).map RunnerEvent.cleanup
    ∧ (∀ k, haltsFirstAt steps st k = true → (∀ j, j ≤ k → cancelled j = false) →
        startedOf (Runner.Run cancelled steps st).2 = positionsFrom 0 (k + 1)
        ∧ cleanedOf (Runner.Run cancelled steps st).2 = (positionsFrom 0 (k + 1)).reverse)
    ∧ (allContinue steps st = true → (∀ j, j < steps.length → cancelled j = false) →
        startedOf (Runner.Run cancelled steps st).2 = positionsFrom 0 steps.length
        ∧ cleanedOf (Runner.Run cancelled steps st).2
          = (positionsFrom 0 steps.length).reverse) := by
  have hs : startedOf (Runner.Run cancelled steps st).2
      = (Runner.ranFrom cancelled steps 0 st).map Prod.fst := by
    rw [Runner.Run_log, startedOf_runs_cleanups]
  have hcl : cleanedOf (Runner.Run cancelled steps st).2
      = ((Runner.ranFrom cancelled steps 0 st).map Prod.fst).reverse := by
    rw [Runner.Run_log, cleanedOf_runs_cleanups]
  refine ⟨by rw [hs, hcl], ?_, ?_, ?_⟩
  · rw [hs, hcl]
    exact Runner.Run_log cancelled steps st
  · intro k hk hc
    have h := Runner.ranFrom_haltsFirstAt cancelled steps 0 st k hk (by simpa using hc)
    rw [hs, hcl, h]
    exact ⟨rfl, rfl⟩
  · intro hall hc
    have h := Runner.ranFrom_allContinue cancelled steps 0 st hall (by simpa using hc)
    rw [hs, hcl, h]
    exact ⟨rfl, rfl⟩

/-- Witness for C7: of three steps the second halts, so positions 0 and 1 are started and
cleaned up in the order 1, 0; and when all three continue cleanup runs in the order
2, 1, 0. -/
theorem Runner.Run_cleanup_reverse_witness :
    (startedOf (Runner.Run neverCancelled stepsSecondHalts 0).2 = positionsFrom 0 2
      ∧ cleanedOf (Runner.Run neverCancelled stepsSecondHalts 0).2
        = (positionsFrom 0 2).reverse)
    ∧ (startedOf (Runner.Run neverCancelled stepsAllContinue 0).2
        = positionsFrom 0 stepsAllContinue.length
      ∧ cleanedOf (Runner.Run neverCancelled stepsAllContinue 0).2
        = (positionsFrom 0 stepsAllContinue.length).reverse) :=
  ⟨(Runner.Run_cleanup_reverse neverCancelled stepsSecondHalts 0).2.2.1 1 (by decide)
      (fun _ _ => rfl),
    (Runner.Run_cleanup_reverse neverCancelled stepsAllContinue 0).2.2.2 (by decide)
      (fun _ _ => rfl)⟩

end Cvm
